import Mathlib

/-!
Shallow embedding of the dn42_route_gen program (src/src/main.rs).

Text is modelled as a list of characters (`Str`), so that every operation
is a plain structurally recursive function the kernel can evaluate.
Rust integer types are modelled as `Nat` with explicit bounds checks at
the operations where Rust overflow semantics matter; an arithmetic
overflow panic (checked arithmetic) is modelled by an `Option`/`Outcome`
failure value distinct from a recoverable error.
-/

namespace RouteGen

/-- Text, as a list of characters. -/
abbrev Str := List Char

/-- Decimal digit test used in the filter-line and number parsers: the
Rust code tests the first character with the range comparison
first < '0' || first > '9'. -/
def isDigitChar (c : Char) : Bool := '0' ≤ c && c ≤ '9'

/-- Hexadecimal digit test (models the radix-16 digit set of the Rust
std IPv6 parser, case-insensitive). -/
def isHexChar (c : Char) : Bool :=
  isDigitChar c || ('a' ≤ c && c ≤ 'f') || ('A' ≤ c && c ≤ 'F')

/-- Value of a hexadecimal digit. -/
def hexVal (c : Char) : Nat :=
  if isDigitChar c then c.toNat - 48
  else if 'a' ≤ c && c ≤ 'f' then c.toNat - 87
  else c.toNat - 55

/-- Models Rust char::is_whitespace: the Unicode White_Space property. -/
def isWsChar (c : Char) : Bool :=
  (0x9 ≤ c.toNat && c.toNat ≤ 0xD) || c.toNat = 0x20 || c.toNat = 0x85 ||
  c.toNat = 0xA0 || c.toNat = 0x1680 ||
  (0x2000 ≤ c.toNat && c.toNat ≤ 0x200A) ||
  c.toNat = 0x2028 || c.toNat = 0x2029 || c.toNat = 0x202F ||
  c.toNat = 0x205F || c.toNat = 0x3000

/-- Models Rust char::to_ascii_lowercase. -/
def asciiLowerChar (c : Char) : Char :=
  if 'A' ≤ c && c ≤ 'Z' then Char.ofNat (c.toNat + 32) else c

/-- Models Rust char::to_ascii_uppercase. -/
def asciiUpperChar (c : Char) : Char :=
  if 'a' ≤ c && c ≤ 'z' then Char.ofNat (c.toNat - 32) else c

/-- Auxiliary for splitting at every occurrence of a separator
character, keeping empty pieces (Rust str::split with a char pattern). -/
def splitOnCharAux (sep : Char) : Str → Str → List Str
  | [], acc => [acc.reverse]
  | c :: cs, acc =>
      if c = sep then acc.reverse :: splitOnCharAux sep cs []
      else splitOnCharAux sep cs (c :: acc)

/-- Models Rust str::split with a single-character pattern: splits at
every separator occurrence and keeps empty pieces. -/
def splitOnChar (sep : Char) (s : Str) : List Str := splitOnCharAux sep s []

/-- Auxiliary for splitting at every whitespace character. -/
def splitPredAux (p : Char → Bool) : Str → Str → List Str
  | [], acc => [acc.reverse]
  | c :: cs, acc =>
      if p c then acc.reverse :: splitPredAux p cs []
      else splitPredAux p cs (c :: acc)

/-- Models Rust str::split_whitespace: split at Unicode whitespace and
drop the empty pieces. -/
def splitWs (s : Str) : List Str :=
  (splitPredAux isWsChar s []).filter (fun t => t ≠ [])

/-- Digits of a decimal number accumulated left to right; fails on a
non-digit character. -/
def decDigitsAux : Str → Nat → Option Nat
  | [], acc => some acc
  | c :: cs, acc =>
      if isDigitChar c then decDigitsAux cs (acc * 10 + (c.toNat - 48))
      else none

/-- A non-empty all-decimal-digit string as a Nat. -/
def parseDecDigits (s : Str) : Option Nat :=
  match s with
  | [] => none
  | _ => decDigitsAux s 0

/-- Strips the optional leading plus sign accepted by Rust str::parse
for unsigned integers. -/
def dropPlus : Str → Str
  | '+' :: rest => rest
  | s => s

/-- Models Rust str::parse for u8: an optional leading plus sign,
then one or more decimal digits, value at most 255 (overflow fails). -/
def parseU8 (s : Str) : Option Nat :=
  match parseDecDigits (dropPlus s) with
  | some v => if v ≤ 255 then some v else none
  | none => none

/-- An IP address: a 32-bit value for IPv4 or a 128-bit value for IPv6
(models std::net::IpAddr). -/
inductive IpAddr : Type
  | V4 (a : Nat)
  | V6 (a : Nat)
deriving DecidableEq, Repr

/-- One octet of a dotted-quad IPv4 address, as parsed by Rust std:
one to three decimal digits, no leading zero on a multi-digit octet,
value at most 255. -/
def parseOctet (s : Str) : Option Nat :=
  match s with
  | [] => none
  | c :: cs =>
      if c = '0' && cs ≠ [] then none
      else if s.length > 3 then none
      else match decDigitsAux s 0 with
        | some v => if v ≤ 255 then some v else none
        | none => none

/-- Models the Rust std textual IPv4 parser: exactly four octets
separated by dots. Returns the 32-bit value. -/
def parseIpv4 (s : Str) : Option Nat :=
  match splitOnChar '.' s with
  | [a, b, c, d] =>
      match parseOctet a, parseOctet b, parseOctet c, parseOctet d with
      | some a, some b, some c, some d =>
          some (((a * 256 + b) * 256 + c) * 256 + d)
      | _, _, _, _ => none
  | _ => none

/-- One 16-bit hexadecimal group of an IPv6 address: one to four hex
digits (Rust std reads at most four digits per group). -/
def parseHexGroup (s : Str) : Option Nat :=
  if s = [] || s.length > 4 || !(s.all isHexChar) then none
  else some (s.foldl (fun acc c => acc * 16 + hexVal c) 0)

/-- Splits at every occurrence of a double colon (auxiliary for the
IPv6 parser; leftmost, non-overlapping). -/
def splitDColonAux : Str → Str → List Str
  | [], acc => [acc.reverse]
  | ':' :: ':' :: cs, acc => acc.reverse :: splitDColonAux cs []
  | c :: cs, acc => splitDColonAux cs (c :: acc)

/-- The pieces of a string around each double colon. -/
def splitDColon (s : Str) : List Str := splitDColonAux s []

/-- Hexadecimal groups only (the part of an IPv6 address before a
double colon may not contain an embedded IPv4 address in Rust std). -/
def parseHexGroups : List Str → Option (List Nat)
  | [] => some []
  | g :: gs =>
      match parseHexGroup g, parseHexGroups gs with
      | some v, some vs => some (v :: vs)
      | _, _ => none

/-- Groups where the final group may be an embedded dotted-quad IPv4
address (contributing two 16-bit groups), as Rust std allows at the end
of an IPv6 address. -/
def parseTailGroups : List Str → Option (List Nat)
  | [] => some []
  | [g] =>
      match parseHexGroup g with
      | some v => some [v]
      | none =>
          match parseIpv4 g with
          | some v => some [v / 65536, v % 65536]
          | none => none
  | g :: gs =>
      match parseHexGroup g, parseTailGroups gs with
      | some v, some vs => some (v :: vs)
      | _, _ => none

/-- Assembles eight 16-bit groups into the 128-bit address value. -/
def v6FromWords (ws : List Nat) : Nat :=
  ws.foldl (fun acc w => acc * 65536 + w) 0

/-- Models the Rust std textual IPv6 parser: eight hexadecimal groups,
or fewer groups around a single double colon (which stands for at least
one zero group), with an optional embedded IPv4 address in the final
position; no empty group strings, at most one double colon. -/
def parseIpv6 (s : Str) : Option Nat :=
  match splitDColon s with
  | [whole] =>
      match parseTailGroups (splitOnChar ':' whole) with
      | some ws => if ws.length = 8 then some (v6FromWords ws) else none
      | none => none
  | [l, r] =>
      let lgs := if l = [] then some [] else parseHexGroups (splitOnChar ':' l)
      let rgs := if r = [] then some [] else parseTailGroups (splitOnChar ':' r)
      match lgs, rgs with
      | some ls, some rs =>
          if ls.length + rs.length ≤ 7 then
            some (v6FromWords (ls ++ List.replicate (8 - ls.length - rs.length) 0 ++ rs))
          else none
      | _, _ => none
  | _ => none

/-- Models Rust std IpAddr FromStr: first the IPv4 grammar, then the
IPv6 grammar. -/
def parseIpAddr (s : Str) : Option IpAddr :=
  match parseIpv4 s with
  | some a => some (.V4 a)
  | none =>
      match parseIpv6 s with
      | some a => some (.V6 a)
      | none => none

/-- struct CIDR of the source: an address plus a prefix length
(field netmask, a u8 in the source). -/
structure CIDR : Type where
  ip : IpAddr
  netmask : Nat
deriving DecidableEq, Repr

/-- CIDR::from_str of the source: split on the slash character, demand
exactly two parts, parse the address and the u8 length. -/
def CIDR.from_str (s : Str) : Option CIDR :=
  match splitOnChar '/' s with
  | [p0, p1] =>
      match parseIpAddr p0, parseU8 p1 with
      | some ip, some nm => some ⟨ip, nm⟩
      | _, _ => none
  | _ => none

/-- CIDR::contains of the source: within one family it right-shifts
both addresses by (bit width − netmask) and compares; across families
it returns false. The source performs the u8 subtraction and the
shift unguarded, so when netmask = 0 the shift amount equals the full
bit width and when netmask exceeds the width the subtraction
overflows: with checked (debug) arithmetic both cases panic, which
this model renders as none (with checks disabled the shift amount
would instead wrap, which is still not an always-true containment). -/
def CIDR.contains (c : CIDR) (ip : IpAddr) : Option Bool :=
  match c.ip, ip with
  | .V4 a, .V4 b =>
      if c.netmask ≤ 32 then
        if 32 - c.netmask < 32 then
          some (a >>> (32 - c.netmask) == b >>> (32 - c.netmask))
        else none
      else none
  | .V6 a, .V6 b =>
      if c.netmask ≤ 128 then
        if 128 - c.netmask < 128 then
          some (a >>> (128 - c.netmask) == b >>> (128 - c.netmask))
        else none
      else none
  | _, _ => some false

/-- One policy rule, modelling the tuple (CIDR, bool, u8, u8) pushed by
process_filter: the CIDR, the permit/deny verdict (allow = true for
permit), and the two length bounds in file order. -/
structure Filter : Type where
  cidr : CIDR
  allow : Bool
  min : Nat
  max : Nat
deriving DecidableEq, Repr

/-- The process_line closure inside process_filter: the line's first
character must be a decimal digit; the tokens after the first
whitespace token are the verdict (exactly deny or permit), a CIDR and
two u8 integers; any missing token or failed parse yields none. -/
def process_line (line : Str) : Option Filter :=
  match line.head? with
  | none => none
  | some first =>
      if first < '0' || '9' < first then none
      else
        match (splitWs line).drop 1 with
        | t1 :: t2 :: t3 :: t4 :: _ =>
            match
              (if t1 = "deny".data then some false
               else if t1 = "permit".data then some true
               else none) with
            | none => none
            | some allow =>
                match CIDR.from_str t2, parseU8 t3, parseU8 t4 with
                | some cidr, some mn, some mx => some ⟨cidr, allow, mn, mx⟩
                | _, _, _ => none
        | _ => none

/-- process_filter on the text of one policy file: split into lines on
the newline character and keep every line that process_line accepts,
in file order. -/
def process_filter (content : Str) : List Filter :=
  (splitOnChar '\n' content).filterMap process_line

/-- The rule list built by main: the lines of the IPv4 filter file
followed by the lines of the IPv6 filter file. -/
def buildFilters (f4 f6 : Str) : List Filter :=
  process_filter f4 ++ process_filter f6

/-- The mutable locals of the attribute-scanning loop in process_entry:
the last route value seen, the accumulated origin ASNs, and the last
max-length value seen. -/
structure ScanState : Type where
  pfx : Option Str
  asn : List Str
  max_length : Option Nat
deriving DecidableEq, Repr

/-- The attribute dispatch of process_entry on the whitespace tokens of
one lowercased line: route and route6 overwrite the prefix, origin
appends an uppercased ASN, max-length overwrites the max length and a
failed integer parse there is a hard error (none); fewer than two
tokens or any other attribute leaves the state unchanged. -/
def scanTokens (st : ScanState) (toks : List Str) : Option ScanState :=
  match toks with
  | t0 :: t1 :: _ =>
      if t0 = "route:".data || t0 = "route6:".data then
        some { st with pfx := some t1 }
      else if t0 = "origin:".data then
        some { st with asn := st.asn ++ [t1.map asciiUpperChar] }
      else if t0 = "max-length:".data then
        match parseU8 t1 with
        | some v => some { st with max_length := some v }
        | none => none
      else some st
  | _ => some st

/-- One iteration of the line loop in process_entry: a line whose first
character is whitespace is skipped, any other line is lowercased and
tokenized. -/
def scanLine (st : ScanState) (line : Str) : Option ScanState :=
  if (line.head?.filter isWsChar).isSome then some st
  else scanTokens st (splitWs (line.map asciiLowerChar))

/-- The whole attribute-scanning loop of process_entry; none propagates
the hard error of a malformed max-length value. -/
def scanLines (st : ScanState) : List Str → Option ScanState
  | [] => some st
  | l :: ls =>
      match scanLine st l with
      | some st2 => scanLines st2 ls
      | none => none

/-- The distinct anyhow error sites of process_entry: a failed std
parse propagated with the question-mark operator, the missing-route
error, and the no-matching-rule error. -/
inductive PErr : Type
  | parseErr
  | noRoute
  | noPolicy
deriving DecidableEq, Repr

/-- Result of running a fallible piece of the program: a value, a
recoverable error (a Result::Err the caller can discard), or a panic
that aborts the whole process. -/
inductive Outcome (α : Type) : Type
  | ok (a : α)
  | err (e : PErr)
  | panic
deriving DecidableEq, Repr

/-- One emitted ROA entry: the rendered prefix text, the resolved
max length and the origin ASN. -/
structure ROA : Type where
  pfx : Str
  max_length : Nat
  asn : Str
deriving DecidableEq, Repr

/-- Result of the rule-matching loop in process_entry: a panic inside
contains, an early return on a deny rule, the bounds of the first
matching permit rule, or no rule matched. -/
inductive MatchResult : Type
  | mpanic
  | mdeny
  | mfound (mn mx : Nat)
  | mnomatch
deriving DecidableEq, Repr

/-- The rule-matching loop of process_entry: scan the rules in order,
skip rules that do not contain the address, return deny or the first
permit rule's bounds. -/
def findFilter (addr : IpAddr) : List Filter → MatchResult
  | [] => .mnomatch
  | f :: fs =>
      match f.cidr.contains addr with
      | none => .mpanic
      | some false => findFilter addr fs
      | some true => if f.allow then .mfound f.min f.max else .mdeny

/-- The max-length resolution of process_entry (lines 200-211): absent
record max-length takes the rule's upper bound; a present value above
the upper bound is lowered to it, below the lower bound is raised to
it, otherwise kept. -/
def clampMaxLength (ml : Option Nat) (fmin fmax : Nat) : Nat :=
  match ml with
  | some m => if m > fmax then fmax else if m < fmin then fmin else m
  | none => fmax

/-- The tail of process_entry after the record's prefix has been parsed:
rule matching, max-length resolution, the specificity drop, and entry
emission (one entry per origin ASN, in order, sharing the prefix text
and resolved max length). -/
def resolveRecord (pfx : Str) (addr : IpAddr) (netmask : Nat)
    (asn : List Str) (ml : Option Nat) (filters : List Filter) :
    Outcome (List ROA) :=
  match findFilter addr filters with
  | .mpanic => .panic
  | .mdeny => .ok []
  | .mnomatch => .err .noPolicy
  | .mfound mn mx =>
      let max_length := clampMaxLength ml mn mx
      if netmask > max_length then .ok []
      else .ok (asn.map (fun a => ⟨pfx, max_length, a⟩))

/-- process_entry on the text of one route-object file: scan the
attributes, demand a route value, split it on the slash (indexing the
second part without a length check: a value with no slash is an
out-of-bounds panic), parse address and length, then resolve. -/
def process_entry (file : Str) (filters : List Filter) :
    Outcome (List ROA) :=
  match scanLines ⟨none, [], none⟩ (splitOnChar '\n' file) with
  | none => .err .parseErr
  | some st =>
      match st.pfx with
      | none => .err .noRoute
      | some pfx =>
          match splitOnChar '/' pfx with
          | [] => .panic
          | p0 :: rest =>
              match parseIpAddr p0 with
              | none => .err .parseErr
              | some addr =>
                  match rest with
                  | [] => .panic
                  | p1 :: _ =>
                      match parseU8 p1 with
                      | none => .err .parseErr
                      | some netmask =>
                          resolveRecord pfx addr netmask st.asn
                            st.max_length filters

/-- A route-object line that is a non-continuation max-length line with
at least two fields whose value token fails the u8 parse (the hard
error site of the record scanner). -/
def isBadMaxLenLine (line : Str) : Bool :=
  !(line.head?.filter isWsChar).isSome &&
  (match splitWs (line.map asciiLowerChar) with
   | t0 :: t1 :: _ => t0 = "max-length:".data && (parseU8 t1).isNone
   | _ => false)

/-- process_directory over the texts of the files of one directory:
each file's recoverable error is discarded (contributing no entries),
a panic aborts everything, and the surviving entry lists are
concatenated in file order. -/
def process_directory (files : List Str) (filters : List Filter) :
    Outcome (List ROA) :=
  match files with
  | [] => .ok []
  | f :: fs =>
      match process_entry f filters with
      | .panic => .panic
      | .err _ => process_directory fs filters
      | .ok roas =>
          match process_directory fs filters with
          | .panic => .panic
          | .err e => .err e
          | .ok rest => .ok (roas ++ rest)

end RouteGen

namespace RouteGen

theorem sanity_splitWs : splitWs "  route:  10.0.0.0/8 ".data =
    ["route:".data, "10.0.0.0/8".data] := by decide

theorem sanity_parseU8 : parseU8 "+024".data = some 24 ∧ parseU8 "256".data = none ∧
    parseU8 "".data = none ∧ parseU8 "+".data = none := by decide

theorem sanity_splitSlash : splitOnChar '/' "10.0.0.0".data = ["10.0.0.0".data] := by decide

theorem sanity_parseIpv4 : parseIpv4 "10.0.0.0".data = some 167772160 ∧
    parseIpv4 "1.2.3.4".data = some 16909060 ∧
    parseIpv4 "01.2.3.4".data = none ∧
    parseIpv4 "256.2.3.4".data = none ∧
    parseIpv4 "1.2.3".data = none := by decide

theorem sanity_parseIpv6 : parseIpv6 "::".data = some 0 ∧
    parseIpv6 "::1".data = some 1 ∧
    parseIpv6 "fd00::".data = some (0xfd00 * 2 ^ 112) ∧
    parseIpv6 "1:2:3:4:5:6:7:8".data = some 0x10002000300040005000600070008 ∧
    parseIpv6 "1:2:3:4:5:6:7::".data = some 0x10002000300040005000600070000 ∧
    parseIpv6 "::ffff:1.2.3.4".data = some 0xffff01020304 ∧
    parseIpv6 "1:2:3:4:5:6:1.2.3.4".data = some 0x10002000300040005000601020304 ∧
    parseIpv6 "1::2::3".data = none ∧
    parseIpv6 ":::".data = none ∧
    parseIpv6 "1:2:3:4:5:6:7:8:9".data = none ∧
    parseIpv6 "1:2:3:4:5:6:7".data = none ∧
    parseIpv6 "12345::".data = none ∧
    parseIpv6 "1.2.3.4::".data = none ∧
    parseIpv6 "FD00::".data = some (0xfd00 * 2 ^ 112) := by decide

theorem sanity_cidr_from_str : CIDR.from_str "10.0.0.0/8".data = some ⟨.V4 167772160, 8⟩ ∧
    CIDR.from_str "10.0.0.0".data = none ∧
    CIDR.from_str "10.0.0.0/8/9".data = none ∧
    CIDR.from_str "fd00::/8".data = some ⟨.V6 (0xfd00 * 2 ^ 112), 8⟩ := by decide

theorem sanity_contains :
    CIDR.contains ⟨.V4 167772160, 8⟩ (.V4 0x0A010000) = some true ∧
    CIDR.contains ⟨.V4 167772160, 8⟩ (.V4 0x0B010000) = some false ∧
    CIDR.contains ⟨.V4 167772160, 8⟩ (.V6 1) = some false ∧
    CIDR.contains ⟨.V4 0, 0⟩ (.V4 16909060) = none ∧
    CIDR.contains ⟨.V4 0, 33⟩ (.V4 16909060) = none ∧
    CIDR.contains ⟨.V6 0, 0⟩ (.V6 1) = none := by decide

theorem sanity_process_filter : process_filter "1 permit 10.0.0.0/8 16 24".data =
    [⟨⟨.V4 167772160, 8⟩, true, 16, 24⟩] := by decide

theorem sanity_end_to_end_permit :
    process_entry "route: 10.1.0.0/16\norigin: AS100\norigin: as200\n".data
      (process_filter "1 permit 10.0.0.0/8 16 24".data) =
    .ok [⟨"10.1.0.0/16".data, 24, "AS100".data⟩,
         ⟨"10.1.0.0/16".data, 24, "AS200".data⟩] := by decide

theorem sanity_end_to_end_deny :
    process_entry "route: 10.2.0.0/16\norigin: AS5\n".data
      (process_filter "1 deny 10.0.0.0/8 0 32".data) = .ok [] := by decide

theorem sanity_end_to_end_clamp_drop :
    process_entry "route: 10.3.0.0/24\nmax-length: 28\norigin: AS5\n".data
      (process_filter "1 permit 10.0.0.0/8 16 20".data) = .ok [] := by decide

/-! Helper lemmas. -/

/-- A successful u8 parse is bounded by 255. -/
theorem parseU8_le (s : Str) (v : Nat) (h : parseU8 s = some v) : v ≤ 255 := by
  unfold parseU8 at h
  split at h
  · split at h
    · injection h with h2
      omega
    · cases h
  · cases h

/-- Token dispatch on a route line stores the value token as the
prefix. -/
theorem scanTokens_route (st : ScanState) (t : Str) (rest : List Str) :
    scanTokens st ("route:".data :: t :: rest) = some { st with pfx := some t } := rfl

/-- Token dispatch on a route6 line stores the value token as the
prefix, exactly as a route line does. -/
theorem scanTokens_route6 (st : ScanState) (t : Str) (rest : List Str) :
    scanTokens st ("route6:".data :: t :: rest) = some { st with pfx := some t } := rfl

/-- Token dispatch on an origin line appends the uppercased value
token. -/
theorem scanTokens_origin (st : ScanState) (t : Str) (rest : List Str) :
    scanTokens st ("origin:".data :: t :: rest) =
      some { st with asn := st.asn ++ [t.map asciiUpperChar] } := rfl

/-- Token dispatch on a max-length line parses the value token as a u8,
failing hard when the parse fails. -/
theorem scanTokens_maxlen (st : ScanState) (t : Str) (rest : List Str) :
    scanTokens st ("max-length:".data :: t :: rest) =
      match parseU8 t with
      | some v => some { st with max_length := some v }
      | none => none := rfl

/-- The rule scan over a concatenation: the second list is consulted
only when the first produced no match. -/
theorem findFilter_append (addr : IpAddr) (xs ys : List Filter) :
    findFilter addr (xs ++ ys) =
      match findFilter addr xs with
      | .mnomatch => findFilter addr ys
      | r => r := by
  induction xs with
  | nil => rfl
  | cons f fs ih =>
      simp only [List.cons_append, findFilter]
      cases hc : f.cidr.contains addr with
      | none => rfl
      | some b =>
          cases b with
          | false => simpa using ih
          | true => cases f.allow <;> rfl

/-- A rule list in which no rule contains the address scans to no
match. -/
theorem findFilter_all_false (addr : IpAddr) (fs : List Filter)
    (h : ∀ r ∈ fs, r.cidr.contains addr = some false) :
    findFilter addr fs = .mnomatch := by
  induction fs with
  | nil => rfl
  | cons f fs ih =>
      have hf := h f (by simp)
      simp only [findFilter, hf]
      exact ih (fun r hr => h r (by simp [hr]))

/-- The rule scan stops at the first rule containing the address. -/
theorem findFilter_first (addr : IpAddr) (pre post : List Filter) (f : Filter)
    (hpre : ∀ r ∈ pre, r.cidr.contains addr = some false)
    (hf : f.cidr.contains addr = some true) :
    findFilter addr (pre ++ f :: post) =
      (if f.allow then .mfound f.min f.max else .mdeny) := by
  rw [findFilter_append, findFilter_all_false addr pre hpre]
  simp only [findFilter, hf]

/-- process_entry on a record whose scan succeeds and whose route value
splits and parses reduces to the resolution step. -/
theorem process_entry_resolve (file : Str) (filters : List Filter)
    (st : ScanState) (pfx p0 p1 : Str) (rest : List Str)
    (addr : IpAddr) (netmask : Nat)
    (hscan : scanLines ⟨none, [], none⟩ (splitOnChar '\n' file) = some st)
    (hpfx : st.pfx = some pfx)
    (hsplit : splitOnChar '/' pfx = p0 :: p1 :: rest)
    (haddr : parseIpAddr p0 = some addr)
    (hnm : parseU8 p1 = some netmask) :
    process_entry file filters =
      resolveRecord pfx addr netmask st.asn st.max_length filters := by
  unfold process_entry
  simp only [hscan, hpfx, hsplit, haddr, hnm]

/-- A record text containing a malformed max-length line makes the
whole attribute scan fail, whatever the scan state. -/
theorem scanLines_bad (lines : List Str) :
    ∀ st : ScanState, (∃ l ∈ lines, isBadMaxLenLine l = true) →
      scanLines st lines = none := by
  induction lines with
  | nil =>
      rintro st ⟨l, hl, _⟩
      cases hl
  | cons a as ih =>
      rintro st ⟨l, hl, hbad⟩
      rcases List.mem_cons.mp hl with rfl | hmem
      · have hnone : scanLine st l = none := by
          unfold isBadMaxLenLine at hbad
          rw [Bool.and_eq_true] at hbad
          obtain ⟨hws, hmatch⟩ := hbad
          have hws2 : (l.head?.filter isWsChar).isSome = false := by
            cases hq : (l.head?.filter isWsChar).isSome
            · rfl
            · rw [hq] at hws
              simp at hws
          unfold scanLine
          rw [hws2]
          simp only [Bool.false_eq_true, if_false]
          cases hsw : splitWs (l.map asciiLowerChar) with
          | nil => rw [hsw] at hmatch; cases hmatch
          | cons t0 ts =>
              cases ts with
              | nil => rw [hsw] at hmatch; cases hmatch
              | cons t1 ts2 =>
                  rw [hsw] at hmatch
                  rw [Bool.and_eq_true] at hmatch
                  obtain ⟨ht0, ht1⟩ := hmatch
                  have ht0e := of_decide_eq_true ht0
                  rw [Option.isNone_iff_eq_none] at ht1
                  subst ht0e
                  rw [scanTokens_maxlen, ht1]
        unfold scanLines
        rw [hnone]
      · unfold scanLines
        cases hse : scanLine st a with
        | none => rfl
        | some st2 => exact ih st2 ⟨l, hmem, hbad⟩

/-- Full inversion of a successful policy-line parse: the line's first
character is a digit, the tokens after the first are a verdict, a CIDR
and two u8 values, and the rule fields are exactly the parsed values. -/
theorem process_line_inv (line : Str) (r : Filter)
    (h : process_line line = some r) :
    ∃ c t1 t2 t3 t4 rest, line.head? = some c ∧ '0' ≤ c ∧ c ≤ '9' ∧
      (splitWs line).drop 1 = t1 :: t2 :: t3 :: t4 :: rest ∧
      ((t1 = "deny".data ∧ r.allow = false) ∨
       (t1 = "permit".data ∧ r.allow = true)) ∧
      CIDR.from_str t2 = some r.cidr ∧
      parseU8 t3 = some r.min ∧ parseU8 t4 = some r.max := by
  unfold process_line at h
  split at h
  · cases h
  · next first hfirst =>
      split at h
      · cases h
      · next hcond =>
          simp only [Bool.or_eq_true, decide_eq_true_eq, not_or, not_lt] at hcond
          obtain ⟨h0, h9⟩ := hcond
          split at h
          · next t1 t2 t3 t4 rest hsp =>
              split at h
              · cases h
              · next allow hv =>
                  split at h
                  · next cidr mn mx hcidr h3 h4 =>
                      injection h with h
                      subst h
                      refine ⟨first, t1, t2, t3, t4, rest, hfirst, h0, h9,
                        hsp, ?_, hcidr, h3, h4⟩
                      split at hv
                      · next ht1 =>
                          injection hv with hv
                          exact Or.inl ⟨ht1, hv.symm⟩
                      · split at hv
                        · next ht1 =>
                            injection hv with hv
                            exact Or.inr ⟨ht1, hv.symm⟩
                        · cases hv
                  · cases h
          · cases h

/-! The claims. -/

/-- C1: for a permit rule with bounds [minLength, maxLength], the
effective max length is the rule's maxLength when the record has none;
a present record value above the rule's maxLength is lowered to it,
below the rule's minLength is raised to it, and inside the range passes
through unchanged. -/
theorem effective_max_length_clamping (fmin fmax : Nat) (hle : fmin ≤ fmax) :
    clampMaxLength none fmin fmax = fmax ∧
    (∀ m, fmax < m → clampMaxLength (some m) fmin fmax = fmax) ∧
    (∀ m, m < fmin → clampMaxLength (some m) fmin fmax = fmin) ∧
    (∀ m, fmin ≤ m → m ≤ fmax → clampMaxLength (some m) fmin fmax = m) := by
  refine ⟨rfl, fun m h => ?_, fun m h => ?_, fun m h1 h2 => ?_⟩ <;>
    simp only [clampMaxLength] <;> split <;> try split
  all_goals omega

/-- Witness for C1 at the rule bounds of the specification example
(min 16, max 24) and record values none, 30, 10 and 20. -/
theorem effective_max_length_clamping_witness :
    clampMaxLength none 16 24 = 24 ∧ clampMaxLength (some 30) 16 24 = 24 ∧
    clampMaxLength (some 10) 16 24 = 16 ∧ clampMaxLength (some 20) 16 24 = 20 := by
  obtain ⟨h1, h2, h3, h4⟩ := effective_max_length_clamping 16 24 (by decide)
  exact ⟨h1, h2 30 (by decide), h3 10 (by decide), h4 20 (by decide) (by decide)⟩

/-- C2: the rule scan is first-match in declared order: it returns the
verdict of the first rule whose CIDR contains the address regardless of
specificity; swapping two rules of which at most one contains the
address does not change the result; and the concatenated rule list
built from the IPv4 filter file followed by the IPv6 filter file
consults the second file only when no rule of the first contains the
address, while a verdict from the first file stands unchanged. -/
theorem first_match_rule_scan :
    (∀ (pre post : List Filter) (f : Filter) (addr : IpAddr),
        (∀ r ∈ pre, r.cidr.contains addr = some false) →
        f.cidr.contains addr = some true →
        findFilter addr (pre ++ f :: post) =
          (if f.allow then .mfound f.min f.max else .mdeny)) ∧
    (∀ (pre post : List Filter) (f g : Filter) (addr : IpAddr),
        (f.cidr.contains addr).isSome → (g.cidr.contains addr).isSome →
        ¬(f.cidr.contains addr = some true ∧ g.cidr.contains addr = some true) →
        findFilter addr (pre ++ f :: g :: post) =
          findFilter addr (pre ++ g :: f :: post)) ∧
    (∀ (f4 f6 : Str) (addr : IpAddr),
        (∀ r ∈ process_filter f4, r.cidr.contains addr = some false) →
        findFilter addr (buildFilters f4 f6) =
          findFilter addr (process_filter f6)) ∧
    (∀ (f4 f6 : Str) (addr : IpAddr),
        findFilter addr (process_filter f4) ≠ .mnomatch →
        findFilter addr (buildFilters f4 f6) =
          findFilter addr (process_filter f4)) := by
  refine ⟨fun pre post f addr hpre hf => findFilter_first addr pre post f hpre hf,
    fun pre post f g addr hfs hgs hne => ?_, fun f4 f6 addr hall => ?_,
    fun f4 f6 addr hne => ?_⟩
  · rw [findFilter_append addr pre (f :: g :: post),
      findFilter_append addr pre (g :: f :: post)]
    cases findFilter addr pre with
    | mnomatch =>
        show findFilter addr (f :: g :: post) = findFilter addr (g :: f :: post)
        rcases Option.isSome_iff_exists.mp hfs with ⟨bf, hbf⟩
        rcases Option.isSome_iff_exists.mp hgs with ⟨bg, hbg⟩
        cases bf with
        | true =>
            cases bg with
            | true => exact absurd ⟨hbf, hbg⟩ hne
            | false => simp only [findFilter, hbf, hbg]
        | false =>
            cases bg with
            | true => simp only [findFilter, hbf, hbg]
            | false => simp only [findFilter, hbf, hbg]
    | mpanic => rfl
    | mdeny => rfl
    | mfound mn mx => rfl
  · unfold buildFilters
    rw [findFilter_append, findFilter_all_false addr (process_filter f4) hall]
  · unfold buildFilters
    rw [findFilter_append]
    cases hq : findFilter addr (process_filter f4) with
    | mnomatch => exact absurd hq hne
    | mpanic => rfl
    | mdeny => rfl
    | mfound mn mx => rfl

/-- Witness for C2: a permit 10.0.0.0/8 rule followed by a more
specific deny 10.0.0.0/16 rule still yields the earlier permit for
10.1.0.0, and swapping it with a non-overlapping deny 192.0.0.0/4 rule
does not change the scan result. -/
theorem first_match_rule_scan_witness :
    findFilter (.V4 0x0A010000)
        [⟨⟨.V4 167772160, 8⟩, true, 16, 24⟩, ⟨⟨.V4 167772160, 16⟩, false, 0, 32⟩] =
      .mfound 16 24 ∧
    findFilter (.V4 0x0A010000)
        [⟨⟨.V4 0xC0000000, 4⟩, false, 0, 32⟩, ⟨⟨.V4 167772160, 8⟩, true, 16, 24⟩] =
      findFilter (.V4 0x0A010000)
        [⟨⟨.V4 167772160, 8⟩, true, 16, 24⟩, ⟨⟨.V4 0xC0000000, 4⟩, false, 0, 32⟩] := by
  constructor
  · have h := first_match_rule_scan.1 [] [⟨⟨.V4 167772160, 16⟩, false, 0, 32⟩]
      ⟨⟨.V4 167772160, 8⟩, true, 16, 24⟩ (.V4 0x0A010000) (by simp) (by decide)
    simpa using h
  · have h := first_match_rule_scan.2.1 [] []
      ⟨⟨.V4 0xC0000000, 4⟩, false, 0, 32⟩ ⟨⟨.V4 167772160, 8⟩, true, 16, 24⟩
      (.V4 0x0A010000) (by decide) (by decide) (by decide)
    simpa using h

/-- C3: contradicted by the code at a concrete input: the source does
not special-case netmask 0 and evaluates the full-bit-width shift,
which is an arithmetic overflow (modelled as none, the panic of checked
shift arithmetic; with checks disabled the wrapped shift compares the
two whole addresses, which is still not an always-true result). For a
nonzero in-range netmask the top-bits comparison works as described. -/
theorem contains_zero_netmask_not_special_cased :
    CIDR.contains ⟨.V4 0, 0⟩ (.V4 16909060) = none ∧
    CIDR.contains ⟨.V6 0, 0⟩ (.V6 1) = none ∧
    CIDR.contains ⟨.V4 0, 1⟩ (.V4 16909060) = some true ∧
    CIDR.contains ⟨.V4 0, 1⟩ (.V4 0x80000000) = some false := by decide

/-- C4: contradicted by the code at a concrete input: a route value
with no slash separator makes process_entry index the second slash
part out of bounds, a panic that process_directory cannot discard (the
whole run aborts), while an unparsable address or length is indeed a
record-local propagated error; a value with extra slash parts is not
rejected at all and flows into the emitted entry. -/
theorem route_without_slash_crashes :
    process_entry "route: 10.0.0.0\norigin: AS1\n".data [] = .panic ∧
    process_directory ["route: 10.0.0.0\norigin: AS1\n".data] [] = .panic ∧
    process_entry "route: 10.0.0.300/8\norigin: AS1\n".data [] = .err .parseErr ∧
    process_entry "route: 10.0.0.0/xx\norigin: AS1\n".data [] = .err .parseErr ∧
    process_entry "route: 10.0.0.0/8/99\norigin: as1\n".data
        [⟨⟨.V4 0, 1⟩, true, 0, 32⟩] =
      .ok [⟨"10.0.0.0/8/99".data, 32, "AS1".data⟩] := by decide

/-- C5: for a record whose route value scans, splits and parses, a
first matching rule with a deny verdict makes process_entry return an
empty entry list (never an error), while a rule list in which no rule
contains the address makes it fail with the no-policy error. -/
theorem deny_drop_and_no_policy_error (file : Str) (st : ScanState)
    (pfx p0 p1 : Str) (rest : List Str) (addr : IpAddr) (netmask : Nat)
    (hscan : scanLines ⟨none, [], none⟩ (splitOnChar '\n' file) = some st)
    (hpfx : st.pfx = some pfx)
    (hsplit : splitOnChar '/' pfx = p0 :: p1 :: rest)
    (haddr : parseIpAddr p0 = some addr)
    (hnm : parseU8 p1 = some netmask) :
    (∀ (pre post : List Filter) (f : Filter),
        (∀ r ∈ pre, r.cidr.contains addr = some false) →
        f.cidr.contains addr = some true → f.allow = false →
        process_entry file (pre ++ f :: post) = .ok []) ∧
    (∀ filters : List Filter,
        (∀ r ∈ filters, r.cidr.contains addr = some false) →
        process_entry file filters = .err .noPolicy) := by
  constructor
  · intro pre post f hpre hf hdeny
    rw [process_entry_resolve file (pre ++ f :: post) st pfx p0 p1 rest addr
      netmask hscan hpfx hsplit haddr hnm]
    unfold resolveRecord
    rw [findFilter_first addr pre post f hpre hf, hdeny]
    rfl
  · intro filters hall
    rw [process_entry_resolve file filters st pfx p0 p1 rest addr netmask
      hscan hpfx hsplit haddr hnm]
    unfold resolveRecord
    rw [findFilter_all_false addr filters hall]

/-- Witness for C5 at the specification's deny example: a deny
10.0.0.0/8 rule silently drops the record for 10.2.0.0/16, and the
empty rule list yields the no-policy error. -/
theorem deny_drop_and_no_policy_error_witness :
    process_entry "route: 10.2.0.0/16\norigin: AS5\n".data
      [⟨⟨.V4 167772160, 8⟩, false, 0, 32⟩] = .ok [] ∧
    process_entry "route: 10.2.0.0/16\norigin: AS5\n".data [] =
      .err .noPolicy := by
  have h := deny_drop_and_no_policy_error "route: 10.2.0.0/16\norigin: AS5\n".data
      ⟨some "10.2.0.0/16".data, ["AS5".data], none⟩ "10.2.0.0/16".data
      "10.2.0.0".data "16".data [] (.V4 0x0A020000) 16
      (by decide) rfl (by decide) (by decide) (by decide)
  have h1 := h.1 [] [] ⟨⟨.V4 167772160, 8⟩, false, 0, 32⟩ (by simp) (by decide) rfl
  exact ⟨by simpa using h1, h.2 [] (by simp)⟩

/-- C6: for a record whose route value scans, splits and parses, and
whose first matching rule is a permit with bounds (min, max): when the
record's prefix length exceeds the effective (clamped) max length,
process_entry returns an empty list (not an error); otherwise it emits
exactly one entry per origin ASN in declaration order, each carrying
the same prefix text and the same effective max length. -/
theorem permit_emission_per_origin (file : Str) (st : ScanState)
    (pfx p0 p1 : Str) (rest : List Str) (addr : IpAddr) (netmask : Nat)
    (hscan : scanLines ⟨none, [], none⟩ (splitOnChar '\n' file) = some st)
    (hpfx : st.pfx = some pfx)
    (hsplit : splitOnChar '/' pfx = p0 :: p1 :: rest)
    (haddr : parseIpAddr p0 = some addr)
    (hnm : parseU8 p1 = some netmask) :
    ∀ (pre post : List Filter) (f : Filter),
      (∀ r ∈ pre, r.cidr.contains addr = some false) →
      f.cidr.contains addr = some true → f.allow = true →
      (clampMaxLength st.max_length f.min f.max < netmask →
        process_entry file (pre ++ f :: post) = .ok []) ∧
      (netmask ≤ clampMaxLength st.max_length f.min f.max →
        process_entry file (pre ++ f :: post) =
          .ok (st.asn.map (fun a =>
            ⟨pfx, clampMaxLength st.max_length f.min f.max, a⟩))) := by
  intro pre post f hpre hf hallow
  rw [process_entry_resolve file (pre ++ f :: post) st pfx p0 p1 rest addr
    netmask hscan hpfx hsplit haddr hnm]
  unfold resolveRecord
  rw [findFilter_first addr pre post f hpre hf, hallow]
  constructor
  · intro hgt
    simp only [if_true]
    rw [if_pos hgt]
  · intro hle
    simp only [if_true]
    rw [if_neg (by omega)]

/-- Witness for C6 at the specification's end-to-end examples: permit
10.0.0.0/8 16 24 with two origins emits two entries with max length 24
in declaration order, and permit 10.0.0.0/8 16 20 with a record
max-length 28 clamped to 20 drops the /24 record. -/
theorem permit_emission_per_origin_witness :
    process_entry "route: 10.1.0.0/16\norigin: AS100\norigin: as200\n".data
        [⟨⟨.V4 167772160, 8⟩, true, 16, 24⟩] =
      .ok [⟨"10.1.0.0/16".data, 24, "AS100".data⟩,
           ⟨"10.1.0.0/16".data, 24, "AS200".data⟩] ∧
    process_entry "route: 10.3.0.0/24\nmax-length: 28\norigin: AS5\n".data
        [⟨⟨.V4 167772160, 8⟩, true, 16, 20⟩] = .ok [] := by
  constructor
  · have h := (permit_emission_per_origin
      "route: 10.1.0.0/16\norigin: AS100\norigin: as200\n".data
      ⟨some "10.1.0.0/16".data, ["AS100".data, "AS200".data], none⟩
      "10.1.0.0/16".data "10.1.0.0".data "16".data [] (.V4 0x0A010000) 16
      (by decide) rfl (by decide) (by decide) (by decide)
      [] [] ⟨⟨.V4 167772160, 8⟩, true, 16, 24⟩
      (by simp) (by decide) rfl).2 (by decide)
    simpa using h
  · have h := (permit_emission_per_origin
      "route: 10.3.0.0/24\nmax-length: 28\norigin: AS5\n".data
      ⟨some "10.3.0.0/24".data, ["AS5".data], some 28⟩
      "10.3.0.0/24".data "10.3.0.0".data "24".data [] (.V4 0x0A030000) 24
      (by decide) rfl (by decide) (by decide) (by decide)
      [] [] ⟨⟨.V4 167772160, 8⟩, true, 16, 20⟩
      (by simp) (by decide) rfl).1 (by decide)
    simpa using h

/-- C8: a route-object text containing a non-continuation max-length
line with at least two fields whose value token fails the integer parse
makes process_entry fail with the propagated parse error (the whole
record aborts), and such a record contributes no entries through
process_directory. -/
theorem bad_max_length_aborts (file : Str) (filters : List Filter)
    (h : ∃ l ∈ splitOnChar '\n' file, isBadMaxLenLine l = true) :
    process_entry file filters = .err .parseErr ∧
    process_directory [file] filters = .ok [] := by
  have hs := scanLines_bad (splitOnChar '\n' file) ⟨none, [], none⟩ h
  have he : process_entry file filters = .err .parseErr := by
    unfold process_entry
    rw [hs]
  refine ⟨he, ?_⟩
  unfold process_directory
  rw [he]
  rfl

/-- Witness for C8: a record whose max-length value is not an integer
aborts with the parse error and contributes no entries. -/
theorem bad_max_length_aborts_witness :
    process_entry "route: 10.0.0.0/8\nmax-length: 1x\norigin: AS1\n".data [] =
      .err .parseErr ∧
    process_directory ["route: 10.0.0.0/8\nmax-length: 1x\norigin: AS1\n".data]
      [] = .ok [] :=
  bad_max_length_aborts "route: 10.0.0.0/8\nmax-length: 1x\norigin: AS1\n".data
    [] ⟨"max-length: 1x".data, by decide, by decide⟩

/-- C7: a policy file line yields a rule only if its first character is
a decimal digit, its second whitespace token is exactly permit or deny,
its third token parses as a CIDR and its fourth and fifth tokens parse
as u8 integers; a line failing any of these yields no rule (the line is
dropped with no error, the Option being the only output channel of
process_line). -/
theorem policy_line_acceptance (line : Str) (r : Filter)
    (h : process_line line = some r) :
    (∃ c, line.head? = some c ∧ '0' ≤ c ∧ c ≤ '9') ∧
    (∃ t1 t2 t3 t4 rest,
      (splitWs line).drop 1 = t1 :: t2 :: t3 :: t4 :: rest ∧
      (t1 = "permit".data ∨ t1 = "deny".data) ∧
      (CIDR.from_str t2).isSome ∧ (parseU8 t3).isSome ∧
      (parseU8 t4).isSome) := by
  obtain ⟨c, t1, t2, t3, t4, rest, hc, h0, h9, hsp, hv, hcidr, h3, h4⟩ :=
    process_line_inv line r h
  refine ⟨⟨c, hc, h0, h9⟩, t1, t2, t3, t4, rest, hsp, ?_, ?_, ?_, ?_⟩
  · rcases hv with ⟨ht1, -⟩ | ⟨ht1, -⟩
    · exact Or.inr ht1
    · exact Or.inl ht1
  · rw [hcidr]; rfl
  · rw [h3]; rfl
  · rw [h4]; rfl

/-- Witness for C7 at a concrete well-formed policy line. -/
theorem policy_line_acceptance_witness :
    (∃ c, ("1 permit 10.0.0.0/8 16 24".data : Str).head? = some c ∧
      '0' ≤ c ∧ c ≤ '9') ∧
    (∃ t1 t2 t3 t4 rest,
      (splitWs "1 permit 10.0.0.0/8 16 24".data).drop 1 =
        t1 :: t2 :: t3 :: t4 :: rest ∧
      (t1 = "permit".data ∨ t1 = "deny".data) ∧
      (CIDR.from_str t2).isSome ∧ (parseU8 t3).isSome ∧
      (parseU8 t4).isSome) :=
  policy_line_acceptance "1 permit 10.0.0.0/8 16 24".data
    ⟨⟨.V4 167772160, 8⟩, true, 16, 24⟩ (by decide)

/-- C9: contradicted by the code at concrete inputs: process_filter
copies the two length tokens into a rule with no validation, so a
policy file line whose minLength token exceeds its maxLength token, or
whose bounds exceed the IPv4 bit width, produces a rule violating the
stated invariant. -/
theorem filter_invariant_violated :
    ((process_filter "1 permit 10.0.0.0/8 24 16".data).all
        (fun r => Nat.ble r.min r.max)) = false ∧
    ((process_filter "1 permit 10.0.0.0/8 16 200".data).all
        (fun r => Nat.ble r.max 32)) = false := by decide

/-- C9 (amended): every rule produced from a policy file line carries
minLength and maxLength verbatim as the parsed values of the line's
fourth and fifth whitespace tokens, each at most 255 (the u8 range);
no minLength-vs-maxLength or bit-width validation is performed, so the
invariant holds exactly when the file's tokens already satisfy it. -/
theorem filter_bounds_verbatim (line : Str) (r : Filter)
    (h : process_line line = some r) :
    ∃ t1 t2 t3 t4 rest,
      (splitWs line).drop 1 = t1 :: t2 :: t3 :: t4 :: rest ∧
      parseU8 t3 = some r.min ∧ parseU8 t4 = some r.max ∧
      r.min ≤ 255 ∧ r.max ≤ 255 := by
  obtain ⟨c, t1, t2, t3, t4, rest, hc, h0, h9, hsp, hv, hcidr, h3, h4⟩ :=
    process_line_inv line r h
  exact ⟨t1, t2, t3, t4, rest, hsp, h3, h4,
    parseU8_le t3 r.min h3, parseU8_le t4 r.max h4⟩

/-- Witness for the amended C9 at the violating line: the rule's bounds
are the verbatim tokens 24 and 16. -/
theorem filter_bounds_verbatim_witness :
    ∃ t1 t2 t3 t4 rest,
      (splitWs "1 permit 10.0.0.0/8 24 16".data).drop 1 =
        t1 :: t2 :: t3 :: t4 :: rest ∧
      parseU8 t3 = some (24 : Nat) ∧ parseU8 t4 = some (16 : Nat) ∧
      (24 : Nat) ≤ 255 ∧ (16 : Nat) ≤ 255 :=
  filter_bounds_verbatim "1 permit 10.0.0.0/8 24 16".data
    ⟨⟨.V4 167772160, 8⟩, true, 24, 16⟩ (by decide)

/-- C10: the record scanner dispatches route and route6 lines to the
same action with no family check on the value (a route6 line carrying
an IPv4 prefix sets the prefix exactly as a route line would), the
stored prefix is overwritten on each occurrence of either name (the
last wins), origin values accumulate in order, and the max-length value
is overwritten on success; end to end, a record declared with route6
and an IPv4 prefix resolves exactly as the same record declared with
route. -/
theorem route_route6_interchangeable :
    (∀ (st : ScanState) (t : Str) (rest : List Str),
        scanTokens st ("route:".data :: t :: rest) =
          some { st with pfx := some t } ∧
        scanTokens st ("route6:".data :: t :: rest) =
          some { st with pfx := some t }) ∧
    (∀ (st : ScanState) (t : Str) (rest : List Str),
        scanTokens st ("origin:".data :: t :: rest) =
          some { st with asn := st.asn ++ [t.map asciiUpperChar] }) ∧
    (∀ (st : ScanState) (t : Str) (rest : List Str) (v : Nat),
        parseU8 t = some v →
        scanTokens st ("max-length:".data :: t :: rest) =
          some { st with max_length := some v }) ∧
    scanLines ⟨none, [], none⟩
        ["route: 1.1.1.0/24".data, "route6: 10.0.0.0/8".data] =
      some ⟨some "10.0.0.0/8".data, [], none⟩ ∧
    process_entry "route6: 10.0.0.0/8\norigin: as1\n".data
        [⟨⟨.V4 0, 1⟩, true, 0, 32⟩] =
      process_entry "route: 10.0.0.0/8\norigin: as1\n".data
        [⟨⟨.V4 0, 1⟩, true, 0, 32⟩] := by
  refine ⟨fun st t rest => ⟨scanTokens_route st t rest, scanTokens_route6 st t rest⟩,
    fun st t rest => scanTokens_origin st t rest,
    fun st t rest v hv => ?_, by decide, by decide⟩
  rw [scanTokens_maxlen, hv]

/-- Witness for C10: a parsed max-length value overwrites the scan
state. -/
theorem route_route6_interchangeable_witness :
    scanTokens ⟨none, [], none⟩ ["max-length:".data, "28".data] =
      some ⟨none, [], some 28⟩ :=
  route_route6_interchangeable.2.2.1 ⟨none, [], none⟩ "28".data [] 28 (by decide)

end RouteGen
